import Mathlib

set_option maxRecDepth 4096

/-!
Shallow embedding of the task-scheduler core (`app/models.py`, `app/repository.py`,
`app/dag.py`, `app/schemas.py`, `app/services/tasks_service.py`), together with
proofs of the behavioural properties claimed about it.

The Store models the two SQL tables (`tasks`, `task_dependencies`) as lists of
rows; each repository function is translated from the corresponding Python
function, with SQL `UPDATE ... WHERE` as a guarded map, `SELECT ... first()` as
`List.find?`, and the session commit/rollback discipline as all-or-nothing
result construction.
-/

namespace App

/-- The four status literals of `TaskStatus` in `app/models.py`. -/
inductive TaskStatus where
  | QUEUED
  | RUNNING
  | COMPLETED
  | FAILED
deriving DecidableEq, Repr

/-- One row of the `tasks` table (timestamps omitted: no claim mentions them). -/
structure Task where
  id : String
  type : String
  duration_ms : Int
  status : TaskStatus
deriving DecidableEq, Repr

/-- One row of the `task_dependencies` table. -/
structure DepEdge where
  task_id : String
  depends_on_task_id : String
deriving DecidableEq, Repr

/-- The durable state: contents of the two tables, in insertion order. -/
structure Store where
  tasks : List Task
  edges : List DepEdge
deriving DecidableEq, Repr

def emptyStore : Store := ⟨[], []⟩

/-- The list of task ids, in row order. -/
def taskIds (s : Store) : List String := s.tasks.map Task.id

/-- `get_task_by_id`: `SELECT * FROM tasks WHERE id = task_id`, first row. -/
def get_task_by_id (s : Store) (task_id : String) : Option Task :=
  s.tasks.find? fun t => decide (t.id = task_id)

/-- `list_tasks`: `SELECT * FROM tasks`. -/
def list_tasks (s : Store) : List Task := s.tasks

/-- Replace a task's status, keeping the other columns. -/
def setStatus (t : Task) (st : TaskStatus) : Task := ⟨t.id, t.type, t.duration_ms, st⟩

/-- The WHERE clause of `mark_task_running`: `id = task_id AND status = 'QUEUED'`. -/
def claimMatches (task_id : String) (t : Task) : Bool :=
  decide (t.id = task_id ∧ t.status = TaskStatus.QUEUED)

/-- `mark_task_running`: conditional `UPDATE tasks SET status='RUNNING' WHERE
id = task_id AND status='QUEUED'`; returns `false` (after rollback, store
unchanged) when `rowcount = 0`, else commits and returns `true`. -/
def mark_task_running (s : Store) (task_id : String) : Store × Bool :=
  let rowcount := (s.tasks.filter (claimMatches task_id)).length
  if rowcount = 0 then (s, false)
  else (⟨s.tasks.map fun t => if claimMatches task_id t then setStatus t TaskStatus.RUNNING else t,
         s.edges⟩, true)

/-- `mark_task_completed`: unconditional `UPDATE tasks SET status='COMPLETED'
WHERE id = task_id` (the Python function returns `None`). -/
def mark_task_completed (s : Store) (task_id : String) : Store :=
  ⟨s.tasks.map fun t => if decide (t.id = task_id) then setStatus t TaskStatus.COMPLETED else t,
   s.edges⟩

/-- `mark_task_failed`: unconditional `UPDATE tasks SET status='FAILED'
WHERE id = task_id` (the Python function returns `None`). -/
def mark_task_failed (s : Store) (task_id : String) : Store :=
  ⟨s.tasks.map fun t => if decide (t.id = task_id) then setStatus t TaskStatus.FAILED else t,
   s.edges⟩

/-- The rowcount of `reset_running_tasks`' UPDATE: the local variable `count`. -/
def reset_running_count (s : Store) : Nat :=
  (s.tasks.filter fun t => decide (t.status = TaskStatus.RUNNING)).length

/-- `reset_running_tasks`: `UPDATE tasks SET status='QUEUED' WHERE
status='RUNNING'`. The Python function computes `count = result.rowcount` and
logs it, but has no `return` statement, so its return value (the second
component here) is `None`. -/
def reset_running_tasks (s : Store) : Store × Option Nat :=
  (⟨s.tasks.map fun t => if decide (t.status = TaskStatus.RUNNING) then setStatus t TaskStatus.QUEUED else t,
    s.edges⟩, none)

/-- The EXISTS subquery of `find_runnable_tasks`, for one outer row id `tid`:
a `task_dependencies` row with `task_id = tid` joined to a dep task row whose
status is not COMPLETED. -/
def blocked (s : Store) (tid : String) : Bool :=
  s.edges.any fun e =>
    decide (e.task_id = tid) &&
      s.tasks.any fun d => decide (d.id = e.depends_on_task_id ∧ d.status ≠ TaskStatus.COMPLETED)

/-- The rows selected by `find_runnable_tasks` before the LIMIT:
`status='QUEUED' AND NOT EXISTS (...)`. -/
def runnable_ids (s : Store) : List String :=
  (s.tasks.filter fun t => decide (t.status = TaskStatus.QUEUED) && !blocked s t.id).map Task.id

/-- `find_runnable_tasks`: the runnable ids, LIMITed. -/
def find_runnable_tasks (s : Store) (limit : Nat) : List String :=
  (runnable_ids s).take limit

/-- The only database error the schema can raise on these inserts:
`IntegrityError` (primary-key or foreign-key violation). -/
inductive DBError where
  | integrityError
deriving DecidableEq, Repr

/-- One `INSERT INTO tasks` against the session's pending state: primary-key
violation if the id is already present, else append the row with status
QUEUED. -/
def insertTaskRow (s : Store) (task_id task_type : String) (duration_ms : Int) :
    Except DBError Store :=
  if s.tasks.any fun t => decide (t.id = task_id) then .error .integrityError
  else .ok ⟨s.tasks ++ [⟨task_id, task_type, duration_ms, TaskStatus.QUEUED⟩], s.edges⟩

/-- One `INSERT INTO task_dependencies` against the session's pending state:
composite-primary-key violation if the pair already exists, else append the
edge. The FOREIGN KEYs declared in `app/models.py` are NOT checked here: the
engine is SQLite (`config.py` defaults to `sqlite:///./tasks.db`) and the code
never issues `PRAGMA foreign_keys=ON` — the only pragma is `journal_mode=WAL`
in `repository.py` — so SQLite leaves the declared foreign keys unenforced and
an edge with an absent endpoint inserts successfully. -/
def insertEdgeRow (s : Store) (task_id dep_id : String) : Except DBError Store :=
  if s.edges.any fun e => decide (e.task_id = task_id ∧ e.depends_on_task_id = dep_id) then
    .error .integrityError
  else .ok ⟨s.tasks, s.edges ++ [⟨task_id, dep_id⟩]⟩

/-- The body of `create_task`'s `try` block: insert the task row, then one edge
row per dependency, in order, against the session's pending state. -/
def create_task_attempt (s : Store) (task_id task_type : String) (duration_ms : Int)
    (dependencies : List String) : Except DBError Store :=
  match insertTaskRow s task_id task_type duration_ms with
  | .error e => .error e
  | .ok s1 => dependencies.foldlM (fun acc dep => insertEdgeRow acc task_id dep) s1

/-- `create_task`: runs the inserts, then `session.commit()`; on any error,
`session.rollback()` leaves the store as it was and the exception is re-raised
(the second component). -/
def create_task (s : Store) (task_id task_type : String) (duration_ms : Int)
    (dependencies : List String) : Store × Option DBError :=
  match create_task_attempt s task_id task_type duration_ms dependencies with
  | .ok s1 => (s1, none)
  | .error e => (s, some e)

/-- `load_dependency_graph`'s loop body: `graph.setdefault(task_id, []).append(dep_id)`
on an insertion-ordered association list. -/
def graphAdd (g : List (String × List String)) (tid dep : String) :
    List (String × List String) :=
  if g.any fun p => decide (p.1 = tid) then
    g.map fun p => if decide (p.1 = tid) then (p.1, p.2 ++ [dep]) else p
  else g ++ [(tid, [dep])]

/-- `load_dependency_graph`: adjacency list task → [deps], built from the edge
rows in order. -/
def load_dependency_graph (s : Store) : List (String × List String) :=
  s.edges.foldl (fun g e => graphAdd g e.task_id e.depends_on_task_id) []

/-- `graph[payload.id] = payload.dependencies`: overwrite the key if present,
else insert it at the end. -/
def graphSet (g : List (String × List String)) (tid : String) (deps : List String) :
    List (String × List String) :=
  if g.any fun p => decide (p.1 = tid) then
    g.map fun p => if decide (p.1 = tid) then (tid, deps) else p
  else g ++ [(tid, deps)]

/-- `graph.get(node, [])`. -/
def graphGet (g : List (String × List String)) (node : String) : List String :=
  match g.find? fun p => decide (p.1 = node) with
  | some p => p.2
  | none => []

mutual

/-- `dag.py`'s inner `dfs`, with the two mutable sets passed explicitly:
`visiting` is the on-stack set, `visited` the done set (threaded through and
returned). Fuel bounds the call depth; `none` means fuel ran out, which
`has_cycle` treats conservatively. On a `True` result the Python sets are
discarded by the early returns, so only the boolean matters there. -/
def dfsVisit (g : List (String × List String)) :
    Nat → String → List String → List String → Option (Bool × List String)
  | 0, _, _, _ => none
  | Nat.succ fuel, node, visiting, visited =>
    if node ∈ visiting then some (true, visited)
    else if node ∈ visited then some (false, visited)
    else
      match dfsDeps g fuel (graphGet g node) (node :: visiting) visited with
      | none => none
      | some (true, visited1) => some (true, visited1)
      | some (false, visited1) => some (false, node :: visited1)

/-- The `for dep in graph.get(node, [])` loop of `dfs`: first `True` wins. -/
def dfsDeps (g : List (String × List String)) :
    Nat → List String → List String → List String → Option (Bool × List String)
  | 0, _, _, _ => none
  | Nat.succ _, [], _, visited => some (false, visited)
  | Nat.succ fuel, dep :: rest, visiting, visited =>
    match dfsVisit g fuel dep visiting visited with
    | none => none
    | some (true, visited1) => some (true, visited1)
    | some (false, visited1) => dfsDeps g fuel rest visiting visited1

end

/-- An upper bound on the DFS call depth: every name in the graph, counted once
per occurrence, plus slack. The Python recursion depth is bounded by the number
of distinct names (each level pushes a fresh name onto `visiting`) plus the
lengths of the adjacency lists along one stack, both of which this sum covers. -/
def dfsFuel (g : List (String × List String)) : Nat :=
  2 * g.foldl (fun n p => n + 1 + p.2.length) 0 + 3

/-- The `for node in graph` loop of `has_cycle`, threading `visited`. -/
def hasCycleLoop (g : List (String × List String)) :
    List String → List String → Bool
  | [], _ => false
  | node :: rest, visited =>
    match dfsVisit g (dfsFuel g) node [] visited with
    | none => true
    | some (true, _) => true
    | some (false, visited1) => hasCycleLoop g rest visited1

/-- `has_cycle` from `app/dag.py`: DFS over the keys with on-stack detection. -/
def has_cycle (g : List (String × List String)) : Bool :=
  hasCycleLoop g (g.map fun p => p.1) []

/-- A `TaskCreateRequest` (`app/schemas.py`) that passed pydantic validation. -/
structure TaskCreateRequest where
  id : String
  type : String
  duration_ms : Int
  dependencies : List String
deriving DecidableEq, Repr

/-- `TaskCreateResponse` (`app/schemas.py`). -/
structure TaskCreateResponse where
  id : String
  status : TaskStatus
deriving DecidableEq, Repr

/-- `TaskResponse` (`app/schemas.py`). -/
structure TaskResponse where
  id : String
  type : String
  duration_ms : Int
  status : TaskStatus
deriving DecidableEq, Repr

/-- The errors `create_task_service` raises as `HTTPException`s. -/
inductive ServiceError where
  /-- 409 "Task with this ID already exists". -/
  | alreadyExists
  /-- 400 "Dependency task '<dep>' does not exist". -/
  | missingDependency (dep : String)
  /-- 400 "Task dependency cycle detected". -/
  | cycleDetected
  /-- 409 "Task or dependency already exists" (IntegrityError during insert). -/
  | integrityConflict
deriving DecidableEq, Repr

/-- The dependency-existence loop of `create_task_service`: the first dep whose
`get_task_by_id` lookup fails, if any. -/
def firstMissingDep (s : Store) (deps : List String) : Option String :=
  deps.find? fun dep => (get_task_by_id s dep).isNone

/-- `create_task_service` (`app/services/tasks_service.py`): duplicate-id check,
dependency-existence check, cycle check on the loaded graph overlaid with the
proposed edges, then `create_task`; an `IntegrityError` from the insert is
translated to a 409 conflict. On success returns the new store and the
response `{id, status: QUEUED}`. -/
def create_task_service (s : Store) (p : TaskCreateRequest) :
    Except ServiceError (Store × TaskCreateResponse) :=
  if (get_task_by_id s p.id).isSome then .error .alreadyExists
  else
    match firstMissingDep s p.dependencies with
    | some dep => .error (.missingDependency dep)
    | none =>
      if has_cycle (graphSet (load_dependency_graph s) p.id p.dependencies) then
        .error .cycleDetected
      else
        match create_task s p.id p.type p.duration_ms p.dependencies with
        | (_, some _) => .error .integrityConflict
        | (s1, none) => .ok (s1, ⟨p.id, TaskStatus.QUEUED⟩)

/-- `get_task_service`: look the row up and project the response fields. -/
def get_task_service (s : Store) (task_id : String) : Option TaskResponse :=
  (get_task_by_id s task_id).map fun t => ⟨t.id, t.type, t.duration_ms, t.status⟩

/-- The raw JSON body of `POST /tasks`, before pydantic validation. -/
structure RawTaskPayload where
  id : String
  type : String
  duration_ms : Int
  dependencies : List String
deriving DecidableEq, Repr

/-- Pydantic validation of `TaskCreateRequest` (`app/schemas.py`): the only
constrained field is `duration_ms: int = Field(..., gt=0)`; `id` and `type`
are plain `str` fields with no length constraint, so any strings pass. -/
def validate_task_create (raw : RawTaskPayload) : Option TaskCreateRequest :=
  if raw.duration_ms > 0 then some ⟨raw.id, raw.type, raw.duration_ms, raw.dependencies⟩
  else none

/-- The outcomes of `POST /tasks` as seen by a client. -/
inductive SubmitResult where
  /-- 422: pydantic rejected the body (`RequestValidationError`). -/
  | validationError
  /-- 4xx/5xx raised by the service. -/
  | serviceError (e : ServiceError)
  /-- 201 with the response body; the store after the insert. -/
  | created (s : Store) (r : TaskCreateResponse)
deriving DecidableEq, Repr

/-- The full `POST /tasks` path: pydantic validation, then
`create_task_service`. A validation failure never reaches the store. -/
def submit (s : Store) (raw : RawTaskPayload) : SubmitResult :=
  match validate_task_create raw with
  | none => .validationError
  | some p =>
    match create_task_service s p with
    | .error e => .serviceError e
    | .ok (s1, r) => .created s1 r

/-- A successful submission, as a relation on stores: failed submissions raise
before `session.commit()` and persist nothing, so only the successful ones
appear in a trace. -/
def SubmitStep (s s1 : Store) : Prop :=
  ∃ p r, create_task_service s p = .ok (s1, r)

/-- Stores reachable from the given one by serially executed successful
submissions. -/
def SubmitReach : Store → Store → Prop :=
  Relation.ReflTransGen SubmitStep

/-- Whole-program state: the durable store plus the ids the scheduler has
claimed and handed to the worker pool whose worker has not yet written a
terminal status (`executor.submit(execute_task, ...)` in `app/scheduler.py`
up to the status write in `app/worker.py`). -/
structure SchedState where
  store : Store
  inflight : List String
deriving DecidableEq, Repr

/-- The store transactions the program performs, one interleaved atomic event
per constructor. `submit` is a successful `create_task_service` call; `claimOk`
and `claimFail` are the scheduler's `mark_task_running` call (`app/scheduler.py`,
which appends the claimed id to the pool's in-flight work); `complete` and
`fail` are the worker's terminal write for a task it was handed
(`app/worker.py`); `crash` is process death (memory lost, store kept); `reset`
is the startup recovery (`app/main.py`), which runs before the scheduler
thread starts, hence with nothing in flight. -/
inductive SchedStep : SchedState → SchedState → Prop where
  | submit (σ : SchedState) (p : TaskCreateRequest) (s1 : Store) (r : TaskCreateResponse)
      (h : create_task_service σ.store p = .ok (s1, r)) :
      SchedStep σ ⟨s1, σ.inflight⟩
  | claimOk (σ : SchedState) (id : String) (s1 : Store)
      (h : mark_task_running σ.store id = (s1, true)) :
      SchedStep σ ⟨s1, id :: σ.inflight⟩
  | claimFail (σ : SchedState) (id : String) (s1 : Store)
      (h : mark_task_running σ.store id = (s1, false)) :
      SchedStep σ ⟨s1, σ.inflight⟩
  | complete (σ : SchedState) (id : String) (h : id ∈ σ.inflight) :
      SchedStep σ ⟨mark_task_completed σ.store id, σ.inflight.erase id⟩
  | fail (σ : SchedState) (id : String) (h : id ∈ σ.inflight) :
      SchedStep σ ⟨mark_task_failed σ.store id, σ.inflight.erase id⟩
  | crash (σ : SchedState) : SchedStep σ ⟨σ.store, []⟩
  | reset (σ : SchedState) (h : σ.inflight = []) :
      SchedStep σ ⟨(reset_running_tasks σ.store).1, []⟩

/-- The program starts with an empty store and nothing in flight. -/
def initState : SchedState := ⟨emptyStore, []⟩

/-- States reachable along program code paths. -/
def SchedReach (σ : SchedState) : Prop :=
  Relation.ReflTransGen SchedStep initState σ

/-- COMPLETED and FAILED are the terminal statuses. -/
def Terminal (st : TaskStatus) : Prop :=
  st = TaskStatus.COMPLETED ∨ st = TaskStatus.FAILED

/-- The inductive invariant for the program state machine: task ids are unique
(primary key), the in-flight list holds no duplicates, and every in-flight id
names a RUNNING task. -/
def SchedInv (σ : SchedState) : Prop :=
  (taskIds σ.store).Nodup ∧ σ.inflight.Nodup ∧
    ∀ id ∈ σ.inflight, ∃ t ∈ σ.store.tasks, t.id = id ∧ t.status = TaskStatus.RUNNING

/-- The insertion index of a task id (its position in the `tasks` table). -/
def idIdx (s : Store) (id : String) : Nat :=
  (taskIds s).indexOf id

/-- Every dependency edge points from a later-inserted task back to an
earlier-inserted one — the inductive invariant behind acyclicity. -/
def EdgesBackward (s : Store) : Prop :=
  ∀ e ∈ s.edges, e.task_id ∈ taskIds s ∧ e.depends_on_task_id ∈ taskIds s ∧
    idIdx s e.depends_on_task_id < idIdx s e.task_id

/-- The dependency-edge relation of a store: `a` depends on `b`. -/
def EdgeRel (s : Store) (a b : String) : Prop :=
  ∃ e ∈ s.edges, e.task_id = a ∧ e.depends_on_task_id = b

/-! ### Basic lemmas about the store operations -/

lemma mem_taskIds {s : Store} {id : String} :
    id ∈ taskIds s ↔ ∃ t ∈ s.tasks, t.id = id := by
  simp [taskIds, List.mem_map, eq_comm]

lemma get_task_by_id_isSome_iff {s : Store} {id : String} :
    (get_task_by_id s id).isSome ↔ id ∈ taskIds s := by
  simp [get_task_by_id, List.find?_isSome, mem_taskIds]

lemma get_task_by_id_eq_none_iff {s : Store} {id : String} :
    get_task_by_id s id = none ↔ id ∉ taskIds s := by
  simp [get_task_by_id, List.find?_eq_none, mem_taskIds]

/-- A guarded status update does not change the id column. -/
lemma taskIds_guard_map (l : List Task) (c : Task → Bool) (st : TaskStatus) :
    (l.map fun t => if c t then setStatus t st else t).map Task.id = l.map Task.id := by
  rw [List.map_map]
  apply List.map_congr_left
  intro t _
  by_cases h : c t <;> simp [h, setStatus]

/-- With unique ids, two rows with the same id are the same row. -/
lemma row_eq_of_id_eq {l : List Task} (hnd : (l.map Task.id).Nodup)
    {t t' : Task} (ht : t ∈ l) (ht' : t' ∈ l) (h : t.id = t'.id) : t = t' :=
  List.inj_on_of_nodup_map hnd ht ht' h

/-- With unique ids, at most one row matches an id-keyed conditional filter. -/
lemma filter_id_length_le_one {l : List Task} (hnd : (l.map Task.id).Nodup)
    (id : String) (c : Task → Prop) [DecidablePred c] :
    (l.filter fun t => decide (t.id = id ∧ c t)).length ≤ 1 := by
  induction l with
  | nil => simp
  | cons a l ih =>
    simp only [List.map_cons, List.nodup_cons] at hnd
    by_cases ha : a.id = id ∧ c a
    · have hrest : (l.filter fun t => decide (t.id = id ∧ c t)) = [] := by
        rw [List.filter_eq_nil_iff]
        intro t ht
        simp only [decide_eq_true_eq, not_and]
        intro hid
        refine fun _ => hnd.1 ?_
        rw [ha.1, ← hid]
        exact List.mem_map_of_mem Task.id ht
      rw [List.filter_cons_of_pos (by simpa using ha), hrest]
      simp
    · simpa [List.filter_cons, ha] using ih hnd.2

/-! ### Claim C3: `reset_running_tasks` -/

/-- C3 counterexample: seed the store with one RUNNING task. The UPDATE changes
one row (`reset_running_count` = the Python local `count` = 1), but the
function's return value is `None` — `reset_running_tasks` in
`app/repository.py` logs the count and has no `return` statement — so it does
not return the count of rows changed. -/
theorem reset_running_tasks_counterexample :
    (reset_running_tasks ⟨[⟨"B", "t", 5, TaskStatus.RUNNING⟩], []⟩).2 = none ∧
    reset_running_count ⟨[⟨"B", "t", 5, TaskStatus.RUNNING⟩], []⟩ = 1 ∧
    (reset_running_tasks ⟨[⟨"B", "t", 5, TaskStatus.RUNNING⟩], []⟩).2 ≠ some 1 := by
  refine ⟨rfl, rfl, by decide⟩

/-- C3 (amended): after `reset_running_tasks` no task has status RUNNING, every
task that was RUNNING has become QUEUED (other columns unchanged), every task
that was not RUNNING is unchanged, and the rowcount of the UPDATE (the local
`count`) is the number of RUNNING rows — but the function returns `None`, not
that count. -/
theorem reset_running_tasks_spec (s : Store) :
    (∀ t ∈ (reset_running_tasks s).1.tasks, t.status ≠ TaskStatus.RUNNING) ∧
    (∀ t ∈ s.tasks, t.status = TaskStatus.RUNNING →
      setStatus t TaskStatus.QUEUED ∈ (reset_running_tasks s).1.tasks) ∧
    (∀ t ∈ s.tasks, t.status ≠ TaskStatus.RUNNING → t ∈ (reset_running_tasks s).1.tasks) ∧
    reset_running_count s =
      (s.tasks.filter fun t => decide (t.status = TaskStatus.RUNNING)).length ∧
    (reset_running_tasks s).2 = none := by
  refine ⟨?_, ?_, ?_, rfl, rfl⟩
  · intro t ht
    simp only [reset_running_tasks, List.mem_map] at ht
    obtain ⟨u, _, hu⟩ := ht
    by_cases h : u.status = TaskStatus.RUNNING <;> simp [h, setStatus] at hu <;>
      rw [← hu] <;> simp [setStatus, h]
  · intro t ht hrun
    have := List.mem_map_of_mem
      (fun t => if decide (t.status = TaskStatus.RUNNING) then setStatus t TaskStatus.QUEUED else t) ht
    simpa [reset_running_tasks, hrun] using this
  · intro t ht hnotrun
    have := List.mem_map_of_mem
      (fun t => if decide (t.status = TaskStatus.RUNNING) then setStatus t TaskStatus.QUEUED else t) ht
    simpa [reset_running_tasks, hnotrun] using this

/-! ### Claim C1: `mark_task_running` -/

lemma mark_task_running_false {s : Store} {task_id : String} {s1 : Store}
    (h : mark_task_running s task_id = (s1, false)) : s1 = s := by
  by_cases h0 : (s.tasks.filter (claimMatches task_id)).length = 0
  · simp only [mark_task_running, h0, if_true] at h
    exact (Prod.ext_iff.mp h).1.symm
  · simp [mark_task_running, h0] at h

lemma mark_task_running_true {s : Store} {task_id : String} {s1 : Store}
    (h : mark_task_running s task_id = (s1, true)) :
    (s.tasks.filter (claimMatches task_id)).length ≠ 0 ∧
    s1.tasks = s.tasks.map fun t =>
      if claimMatches task_id t then setStatus t TaskStatus.RUNNING else t := by
  by_cases h0 : (s.tasks.filter (claimMatches task_id)).length = 0
  · simp [mark_task_running, h0] at h
  · refine ⟨h0, ?_⟩
    simp only [mark_task_running, h0, if_false] at h
    injection h with h1 h2
    rw [← h1]

/-- C1: `mark_task_running` sets the task's status to RUNNING iff its current
status is QUEUED: a row matching `id = task_id AND status = QUEUED` reappears
with status RUNNING (other columns kept), every other row is carried over
unchanged, the call returns true exactly when the UPDATE's rowcount is one
(with unique ids the rowcount is 0 or 1), and on a false return the store is
left unchanged. -/
theorem mark_task_running_spec (s : Store) (task_id : String)
    (hnd : (taskIds s).Nodup) :
    ((mark_task_running s task_id).2 = true ↔
      (s.tasks.filter (claimMatches task_id)).length = 1) ∧
    ((mark_task_running s task_id).2 = false → (mark_task_running s task_id).1 = s) ∧
    (∀ t ∈ s.tasks, t.id = task_id → t.status = TaskStatus.QUEUED →
      setStatus t TaskStatus.RUNNING ∈ (mark_task_running s task_id).1.tasks) ∧
    (∀ t ∈ s.tasks, ¬(t.id = task_id ∧ t.status = TaskStatus.QUEUED) →
      t ∈ (mark_task_running s task_id).1.tasks) := by
  have hle : (s.tasks.filter (claimMatches task_id)).length ≤ 1 :=
    filter_id_length_le_one hnd task_id (fun t => t.status = TaskStatus.QUEUED)
  refine ⟨?_, ?_, ?_, ?_⟩
  · constructor
    · intro htrue
      cases hres : mark_task_running s task_id with
      | mk s1 b =>
        rw [hres] at htrue
        cases b with
        | false => simp at htrue
        | true => exact Nat.le_antisymm hle (Nat.one_le_iff_ne_zero.mpr (mark_task_running_true hres).1)
    · intro hone
      have h0 : (s.tasks.filter (claimMatches task_id)).length ≠ 0 := by omega
      simp [mark_task_running, h0]
  · intro hfalse
    cases hres : mark_task_running s task_id with
    | mk s1 b =>
      rw [hres] at hfalse
      cases b with
      | false => simp [mark_task_running_false hres]
      | true => simp at hfalse
  · intro t ht hid hq
    have h0 : (s.tasks.filter (claimMatches task_id)).length ≠ 0 := by
      intro h0
      rw [List.length_eq_zero, List.filter_eq_nil_iff] at h0
      exact h0 t ht (by simp [claimMatches, hid, hq])
    have hc : claimMatches task_id t = true := by simp [claimMatches, hid, hq]
    have := List.mem_map_of_mem
      (fun t => if claimMatches task_id t then setStatus t TaskStatus.RUNNING else t) ht
    simp only [mark_task_running, h0, if_false]
    simpa [hc] using this
  · intro t ht hnot
    by_cases h0 : (s.tasks.filter (claimMatches task_id)).length = 0
    · simpa [mark_task_running, h0] using ht
    · have hc : claimMatches task_id t = false := by
        simpa [claimMatches] using hnot
      have := List.mem_map_of_mem
        (fun t => if claimMatches task_id t then setStatus t TaskStatus.RUNNING else t) ht
      simp only [mark_task_running, h0, if_false]
      simpa [hc] using this

/-- C1 witness: on a one-row QUEUED store the claim succeeds (rowcount 1). -/
theorem mark_task_running_spec_witness :
    (mark_task_running ⟨[⟨"A", "t", 5, TaskStatus.QUEUED⟩], []⟩ "A").2 = true :=
  (mark_task_running_spec ⟨[⟨"A", "t", 5, TaskStatus.QUEUED⟩], []⟩ "A" (by decide)).1.mpr
    (by decide)

/-! ### Claim C2: `find_runnable_tasks` -/

/-- C2: `find_runnable_tasks` returns at most `limit` ids; every returned id
names a QUEUED task each of whose listed dependencies exists and is COMPLETED
(given dependency integrity, invariant I2); and a QUEUED task with no
dependency edges is always among the runnable rows (eligible before the
LIMIT is applied). -/
theorem find_runnable_tasks_spec (s : Store) (limit : Nat) (_hpos : 0 < limit)
    (hfk : ∀ e ∈ s.edges, ∃ d ∈ s.tasks, d.id = e.depends_on_task_id) :
    (find_runnable_tasks s limit).length ≤ limit ∧
    (∀ id ∈ find_runnable_tasks s limit,
      (∃ t ∈ s.tasks, t.id = id ∧ t.status = TaskStatus.QUEUED) ∧
      (∀ e ∈ s.edges, e.task_id = id →
        ∃ d ∈ s.tasks, d.id = e.depends_on_task_id ∧ d.status = TaskStatus.COMPLETED)) ∧
    (∀ t ∈ s.tasks, t.status = TaskStatus.QUEUED →
      (∀ e ∈ s.edges, e.task_id ≠ t.id) → t.id ∈ runnable_ids s) := by
  have hblocked : ∀ tid : String, blocked s tid = true ↔
      ∃ e ∈ s.edges, e.task_id = tid ∧
        ∃ d ∈ s.tasks, d.id = e.depends_on_task_id ∧ d.status ≠ TaskStatus.COMPLETED := by
    intro tid
    simp [blocked, List.any_eq_true]
  refine ⟨List.length_take_le limit _, ?_, ?_⟩
  · intro id hid
    have hmem : id ∈ runnable_ids s := List.mem_of_mem_take hid
    simp only [runnable_ids, List.mem_map, List.mem_filter, Bool.and_eq_true,
      decide_eq_true_eq, Bool.not_eq_true'] at hmem
    obtain ⟨t, ⟨ht, hq, hnb⟩, hid'⟩ := hmem
    refine ⟨⟨t, ht, hid', hq⟩, ?_⟩
    intro e he hetid
    have hnotb : ¬ ∃ e ∈ s.edges, e.task_id = t.id ∧
        ∃ d ∈ s.tasks, d.id = e.depends_on_task_id ∧ d.status ≠ TaskStatus.COMPLETED := by
      rw [← hblocked]
      simp [hnb]
    obtain ⟨d, hd, hdid⟩ := hfk e he
    refine ⟨d, hd, hdid, ?_⟩
    by_contra hne
    exact hnotb ⟨e, he, by rw [hetid, hid'], ⟨d, hd, hdid, hne⟩⟩
  · intro t ht hq hnoedge
    have hnb : blocked s t.id = false := by
      rw [Bool.eq_false_iff, ne_eq, hblocked]
      rintro ⟨e, he, hetid, -⟩
      exact hnoedge e he hetid
    refine List.mem_map_of_mem Task.id (List.mem_filter.mpr ⟨ht, ?_⟩)
    simp [hq, hnb]

/-- C2 witness: a store where B's one dependency (A) is COMPLETED, C's (D) is
RUNNING, and E has no dependencies: B and E are runnable, C is not. -/
theorem find_runnable_tasks_spec_witness :
    (find_runnable_tasks ⟨[⟨"A", "t", 5, TaskStatus.COMPLETED⟩, ⟨"B", "t", 5, TaskStatus.QUEUED⟩,
        ⟨"C", "t", 5, TaskStatus.QUEUED⟩, ⟨"D", "t", 5, TaskStatus.RUNNING⟩,
        ⟨"E", "t", 5, TaskStatus.QUEUED⟩],
      [⟨"B", "A"⟩, ⟨"C", "D"⟩]⟩ 2).length ≤ 2 :=
  (find_runnable_tasks_spec _ 2 (by decide) (by decide)).1

/-! ### Claim C6: `create_task` and the missing foreign-key enforcement

The session's rollback does make `create_task` all-or-nothing, and a duplicate
task id always fails against the primary key. But the claim's third failure
cause — an absent dependency id — never fails in the program: SQLite only
enforces declared FOREIGN KEYs when `PRAGMA foreign_keys=ON` is issued on the
connection, and this code never issues it, so the dangling edge is inserted
and committed. Missing dependencies are rejected only by the service-level
pre-check in `create_task_service`, not by the store. -/

/-- Characterisation of a successful single edge insert. -/
lemma insertEdgeRow_ok {st acc : Store} {i dep : String}
    (h : insertEdgeRow st i dep = .ok acc) :
    acc.tasks = st.tasks ∧ acc.edges = st.edges ++ [⟨i, dep⟩] := by
  rw [insertEdgeRow] at h
  split at h
  · exact Except.noConfusion h
  · injection h with h
    exact ⟨by rw [← h], by rw [← h]⟩

/-- An edge insert whose pair is not already present succeeds — the absent
endpoints are not checked (no foreign-key enforcement). -/
lemma insertEdgeRow_fresh {st : Store} {i dep : String}
    (h : (⟨i, dep⟩ : DepEdge) ∉ st.edges) :
    insertEdgeRow st i dep = .ok ⟨st.tasks, st.edges ++ [⟨i, dep⟩]⟩ := by
  have hc : ¬ ((st.edges.any fun e =>
      decide (e.task_id = i ∧ e.depends_on_task_id = dep)) = true) := by
    intro hc
    rw [List.any_eq_true] at hc
    obtain ⟨e, he, hdec⟩ := hc
    rw [decide_eq_true_eq] at hdec
    apply h
    cases e with
    | mk a b =>
      obtain ⟨h1, h2⟩ := hdec
      subst h1
      subst h2
      exact he
  rw [insertEdgeRow, if_neg hc]

/-- Characterisation of a successful task-row insert: the id was fresh and the
QUEUED row is appended. -/
lemma insertTaskRow_ok {s s0 : Store} {i ty : String} {d : Int}
    (h : insertTaskRow s i ty d = .ok s0) :
    i ∉ taskIds s ∧ s0 = ⟨s.tasks ++ [⟨i, ty, d, TaskStatus.QUEUED⟩], s.edges⟩ := by
  rw [insertTaskRow] at h
  split at h
  · exact Except.noConfusion h
  · rename_i hc
    injection h with h
    refine ⟨fun hmem => hc ?_, h.symm⟩
    rw [List.any_eq_true]
    obtain ⟨t, ht, hid⟩ := mem_taskIds.mp hmem
    exact ⟨t, ht, by simp [hid]⟩

/-- Inserting a task row under an existing id violates the primary key. -/
lemma insertTaskRow_dup {s : Store} {i ty : String} {d : Int} (hdup : i ∈ taskIds s) :
    insertTaskRow s i ty d = .error .integrityError := by
  have hany : (s.tasks.any fun t => decide (t.id = i)) = true := by
    rw [List.any_eq_true]
    obtain ⟨t, ht, hid⟩ := mem_taskIds.mp hdup
    exact ⟨t, ht, by simp [hid]⟩
  rw [insertTaskRow]
  simp [hany]

/-- Inserting a task row under a fresh id succeeds. -/
lemma insertTaskRow_fresh {s : Store} {i ty : String} {d : Int} (hfresh : i ∉ taskIds s) :
    insertTaskRow s i ty d = .ok ⟨s.tasks ++ [⟨i, ty, d, TaskStatus.QUEUED⟩], s.edges⟩ := by
  have hc : ¬ ((s.tasks.any fun t => decide (t.id = i)) = true) := by
    intro hc
    rw [List.any_eq_true] at hc
    obtain ⟨t, ht, hdec⟩ := hc
    rw [decide_eq_true_eq] at hdec
    exact hfresh (List.mem_map.mpr ⟨t, ht, hdec⟩)
  rw [insertTaskRow, if_neg hc]

/-- A successful run of the edge-insertion loop appends exactly the proposed
edges and leaves the task rows alone. -/
lemma edge_fold_ok (i : String) :
    ∀ (deps : List String) (st s1 : Store),
      deps.foldlM (fun acc dep => insertEdgeRow acc i dep) st = .ok s1 →
      s1.tasks = st.tasks ∧
      s1.edges = st.edges ++ deps.map (fun dep => (⟨i, dep⟩ : DepEdge)) := by
  intro deps
  induction deps with
  | nil =>
    intro st s1 h
    have hst : st = s1 := by simpa [List.foldlM, pure, Except.pure] using h
    subst hst
    simp
  | cons dep rest ih =>
    intro st s1 h
    rw [List.foldlM_cons] at h
    cases hstep : insertEdgeRow st i dep with
    | error e =>
      rw [hstep] at h
      simp only [bind, Except.bind] at h
      exact Except.noConfusion h
    | ok acc =>
      rw [hstep] at h
      simp only [bind, Except.bind] at h
      obtain ⟨ha1, ha2⟩ := insertEdgeRow_ok hstep
      obtain ⟨ih1, ih2⟩ := ih acc s1 h
      refine ⟨by rw [ih1, ha1], ?_⟩
      rw [ih2, ha2, List.map_cons, List.append_assoc]
      rfl

/-- When none of the proposed pairs pre-exists and the dependency list has no
duplicates, the whole edge loop succeeds — whether or not the dependency ids
name existing tasks. -/
lemma edge_fold_succeeds (i : String) :
    ∀ (deps : List String) (st : Store),
      deps.Nodup →
      (∀ dep ∈ deps, (⟨i, dep⟩ : DepEdge) ∉ st.edges) →
      deps.foldlM (fun acc dep => insertEdgeRow acc i dep) st =
        .ok ⟨st.tasks, st.edges ++ deps.map (fun dep => (⟨i, dep⟩ : DepEdge))⟩ := by
  intro deps
  induction deps with
  | nil =>
    intro st _ _
    simp [List.foldlM, pure, Except.pure]
  | cons dep rest ih =>
    intro st hnd hno
    rw [List.foldlM_cons,
      insertEdgeRow_fresh (hno dep (List.mem_cons_self dep rest))]
    simp only [bind, Except.bind]
    obtain ⟨hdep, hrest⟩ := List.nodup_cons.mp hnd
    have ihres := ih ⟨st.tasks, st.edges ++ [⟨i, dep⟩]⟩ hrest ?_
    · rw [ihres]
      simp [List.append_assoc]
    · intro d hd
      rw [List.mem_append]
      rintro (hin | hin)
      · exact hno d (List.mem_cons_of_mem dep hd) hin
      · rw [List.mem_singleton] at hin
        injection hin with h1 h2
        exact hdep (h2 ▸ hd)

/-- A successful `create_task_attempt` appends the QUEUED task row and exactly
the proposed edges; the id was fresh. -/
lemma create_task_attempt_ok {s : Store} {i ty : String} {d : Int} {deps : List String}
    {s1 : Store} (h : create_task_attempt s i ty d deps = .ok s1) :
    i ∉ taskIds s ∧
    s1.tasks = s.tasks ++ [⟨i, ty, d, TaskStatus.QUEUED⟩] ∧
    s1.edges = s.edges ++ deps.map (fun dep => (⟨i, dep⟩ : DepEdge)) := by
  rw [create_task_attempt] at h
  cases hrow : insertTaskRow s i ty d with
  | error e => rw [hrow] at h; exact Except.noConfusion h
  | ok s0 =>
    rw [hrow] at h
    obtain ⟨hfresh, hs0⟩ := insertTaskRow_ok hrow
    obtain ⟨f1, f2⟩ := edge_fold_ok i deps s0 s1 h
    subst hs0
    exact ⟨hfresh, by rw [f1], by rw [f2]⟩

/-- Unfolding `create_task` on a failed attempt: rollback. -/
lemma create_task_of_attempt_error {s : Store} {i ty : String} {d : Int}
    {deps : List String} {e : DBError}
    (h : create_task_attempt s i ty d deps = .error e) :
    create_task s i ty d deps = (s, some e) := by
  simp only [create_task, h]

/-- Unfolding `create_task` on a successful attempt: commit. -/
lemma create_task_of_attempt_ok {s : Store} {i ty : String} {d : Int}
    {deps : List String} {s1 : Store}
    (h : create_task_attempt s i ty d deps = .ok s1) :
    create_task s i ty d deps = (s1, none) := by
  simp only [create_task, h]

/-- C6 counterexample: submitting task B with the absent dependency "ghost"
does NOT fail — `create_task` commits the task row together with the dangling
edge, because SQLite never enforces the declared foreign keys (the code
issues no `PRAGMA foreign_keys=ON`). This refutes the claim that an absent
dependency id is a failure cause after which no rows are persisted. -/
theorem create_task_ghost_dep_succeeds :
    create_task ⟨[⟨"A", "t", 5, TaskStatus.QUEUED⟩], []⟩ "B" "t" 7 ["ghost"] =
      (⟨[⟨"A", "t", 5, TaskStatus.QUEUED⟩, ⟨"B", "t", 7, TaskStatus.QUEUED⟩],
        [⟨"B", "ghost"⟩]⟩, none) := by
  rfl

/-- C6 (amended): whenever `create_task` fails — duplicate task id (primary
key), duplicate dependency pair (composite primary key), or any database error
on its inserts — the rollback leaves the store exactly as it was, and a
duplicate task id always fails with IntegrityError. But an absent dependency
id does not make the call fail: with a fresh id, duplicate-free dependencies
and no pre-existing pairs, the insert commits the task row and every edge,
dangling edges included (the declared foreign keys are unenforced). -/
theorem create_task_atomic (s : Store) (i ty : String) (d : Int) (deps : List String) :
    ((create_task s i ty d deps).2.isSome → (create_task s i ty d deps).1 = s) ∧
    (i ∈ taskIds s → (create_task s i ty d deps).2 = some DBError.integrityError) ∧
    (i ∉ taskIds s → deps.Nodup →
      (∀ dep ∈ deps, (⟨i, dep⟩ : DepEdge) ∉ s.edges) →
      (create_task s i ty d deps).2 = none ∧
      (create_task s i ty d deps).1.tasks =
        s.tasks ++ [⟨i, ty, d, TaskStatus.QUEUED⟩] ∧
      (create_task s i ty d deps).1.edges =
        s.edges ++ deps.map (fun dep => (⟨i, dep⟩ : DepEdge))) := by
  refine ⟨?_, ?_, ?_⟩
  · intro hsome
    cases hatt : create_task_attempt s i ty d deps with
    | ok s1 => rw [create_task_of_attempt_ok hatt] at hsome; simp at hsome
    | error e => rw [create_task_of_attempt_error hatt]
  · intro hdup
    have hatt : create_task_attempt s i ty d deps = .error .integrityError := by
      rw [create_task_attempt, insertTaskRow_dup hdup]
    rw [create_task_of_attempt_error hatt]
  · intro hfresh hnd hno
    have hatt : create_task_attempt s i ty d deps =
        .ok ⟨s.tasks ++ [⟨i, ty, d, TaskStatus.QUEUED⟩],
             s.edges ++ deps.map (fun dep => (⟨i, dep⟩ : DepEdge))⟩ := by
      rw [create_task_attempt, insertTaskRow_fresh hfresh]
      exact edge_fold_succeeds i deps ⟨s.tasks ++ [⟨i, ty, d, TaskStatus.QUEUED⟩], s.edges⟩
        hnd hno
    rw [create_task_of_attempt_ok hatt]
    exact ⟨rfl, rfl, rfl⟩

/-- C6 witness: a duplicate id fails with IntegrityError and rolls back;
a fresh id with the absent dependency "ghost" commits. -/
theorem create_task_atomic_witness :
    (create_task ⟨[⟨"A", "t", 5, TaskStatus.QUEUED⟩], []⟩ "A" "t" 5 []).2 =
      some DBError.integrityError ∧
    (create_task ⟨[⟨"A", "t", 5, TaskStatus.QUEUED⟩], []⟩ "A" "t" 5 []).1 =
      ⟨[⟨"A", "t", 5, TaskStatus.QUEUED⟩], []⟩ ∧
    (create_task ⟨[⟨"A", "t", 5, TaskStatus.QUEUED⟩], []⟩ "B" "t" 7 ["ghost"]).2 = none :=
  ⟨(create_task_atomic ⟨[⟨"A", "t", 5, TaskStatus.QUEUED⟩], []⟩ "A" "t" 5 []).2.1
      (by decide),
   (create_task_atomic ⟨[⟨"A", "t", 5, TaskStatus.QUEUED⟩], []⟩ "A" "t" 5 []).1
      (by decide),
   ((create_task_atomic ⟨[⟨"A", "t", 5, TaskStatus.QUEUED⟩], []⟩ "B" "t" 7 ["ghost"]).2.2
      (by decide) (by decide) (by decide)).1⟩

/-! ### The submission service: characterisation lemmas -/

/-- The duplicate-id check is the first one: an existing id short-circuits the
service with 409 AlreadyExists. -/
lemma create_task_service_dup {s : Store} {p : TaskCreateRequest}
    (h : p.id ∈ taskIds s) :
    create_task_service s p = .error .alreadyExists := by
  rw [create_task_service, if_pos (get_task_by_id_isSome_iff.mpr h)]

/-- When the dependency-existence loop finds nothing missing, every listed
dependency exists as a task. -/
lemma firstMissingDep_none {s : Store} {deps : List String}
    (h : firstMissingDep s deps = none) :
    ∀ dep ∈ deps, dep ∈ taskIds s := by
  rw [firstMissingDep, List.find?_eq_none] at h
  intro dep hdep
  have hd := h dep hdep
  rw [Bool.not_eq_true, Option.isNone_eq_false_iff] at hd
  exact get_task_by_id_isSome_iff.mp hd

/-- A `(s1, none)` result of `create_task` comes from a successful attempt. -/
lemma create_task_none_attempt {s : Store} {i ty : String} {d : Int}
    {deps : List String} {s1 : Store}
    (h : create_task s i ty d deps = (s1, none)) :
    create_task_attempt s i ty d deps = .ok s1 := by
  cases hatt : create_task_attempt s i ty d deps with
  | ok s2 =>
    rw [create_task_of_attempt_ok hatt] at h
    injection h with h1 h2
    rw [← h1]
  | error e =>
    rw [create_task_of_attempt_error hatt] at h
    injection h with h1 h2
    exact Option.noConfusion h2

/-- A successful `create_task_service` call: the id was new, every dependency
existed, the QUEUED task row and exactly the proposed edges were appended, and
the response is `{id, status: QUEUED}`. -/
lemma create_task_service_ok {s : Store} {p : TaskCreateRequest} {s1 : Store}
    {r : TaskCreateResponse} (h : create_task_service s p = .ok (s1, r)) :
    p.id ∉ taskIds s ∧ (∀ dep ∈ p.dependencies, dep ∈ taskIds s) ∧
    s1.tasks = s.tasks ++ [⟨p.id, p.type, p.duration_ms, TaskStatus.QUEUED⟩] ∧
    s1.edges = s.edges ++ p.dependencies.map (fun dep => (⟨p.id, dep⟩ : DepEdge)) ∧
    r = ⟨p.id, TaskStatus.QUEUED⟩ := by
  rw [create_task_service] at h
  split at h
  · exact Except.noConfusion h
  · rename_i hdup
    cases hmd : firstMissingDep s p.dependencies with
    | some dep =>
      simp only [hmd] at h
      exact Except.noConfusion h
    | none =>
      simp only [hmd] at h
      split at h
      · exact Except.noConfusion h
      · cases hct : create_task s p.id p.type p.duration_ms p.dependencies with
        | mk s2 oerr =>
          simp only [hct] at h
          cases oerr with
          | some e => exact Except.noConfusion h
          | none =>
            injection h with h
            injection h with h1 h2
            subst h1
            obtain ⟨hfresh, htasks, hedges⟩ :=
              create_task_attempt_ok (create_task_none_attempt hct)
            exact ⟨hfresh, firstMissingDep_none hmd, htasks, hedges, h2.symm⟩

/-! ### Claim C8: duplicate id wins over any later failure -/

/-- C8: whenever the submitted id already names a task, the service fails with
409 AlreadyExists — the duplicate check runs before the missing-dependency and
cycle checks, so those conditions are never reported for a duplicate. -/
theorem duplicate_id_first (s : Store) (p : TaskCreateRequest)
    (h : p.id ∈ taskIds s) :
    create_task_service s p = .error .alreadyExists :=
  create_task_service_dup h

/-- C8 witness: the spec scenario — A and B exist with B depending on A;
re-submitting A with deps=[B] (which would close a cycle) is rejected as a
duplicate, not as a cycle. -/
theorem duplicate_id_first_witness :
    create_task_service
      ⟨[⟨"A", "t", 5, TaskStatus.QUEUED⟩, ⟨"B", "t", 5, TaskStatus.QUEUED⟩], [⟨"B", "A"⟩]⟩
      ⟨"A", "t", 5, ["B"]⟩ = .error .alreadyExists :=
  duplicate_id_first _ ⟨"A", "t", 5, ["B"]⟩ (by decide)

/-! ### Claim C9: Submit / GetTask round trip -/

/-- C9: after a successful submission, `get_task_service` on the submitted id
returns exactly the submitted `id`, `type` and `duration_ms`, with status
QUEUED. -/
theorem submit_get_roundtrip (s : Store) (p : TaskCreateRequest) (s1 : Store)
    (r : TaskCreateResponse) (h : create_task_service s p = .ok (s1, r)) :
    get_task_service s1 p.id =
      some ⟨p.id, p.type, p.duration_ms, TaskStatus.QUEUED⟩ := by
  obtain ⟨hid, -, htasks, -, -⟩ := create_task_service_ok h
  have hnone : s.tasks.find? (fun t => decide (t.id = p.id)) = none := by
    rw [List.find?_eq_none]
    intro t ht
    simp only [decide_eq_true_eq]
    intro he
    exact hid (List.mem_map.mpr ⟨t, ht, he⟩)
  have hone : ([⟨p.id, p.type, p.duration_ms, TaskStatus.QUEUED⟩] : List Task).find?
      (fun t => decide (t.id = p.id)) = some ⟨p.id, p.type, p.duration_ms, TaskStatus.QUEUED⟩ := by
    simp [List.find?]
  rw [get_task_service, get_task_by_id, htasks, List.find?_append, hnone, hone]
  rfl

/-- C9 witness: submitting to the empty store and reading the task back. -/
theorem submit_get_roundtrip_witness :
    get_task_service ⟨[⟨"A", "x", 7, TaskStatus.QUEUED⟩], []⟩ "A" =
      some ⟨"A", "x", 7, TaskStatus.QUEUED⟩ :=
  submit_get_roundtrip emptyStore ⟨"A", "x", 7, []⟩
    ⟨[⟨"A", "x", 7, TaskStatus.QUEUED⟩], []⟩ ⟨"A", TaskStatus.QUEUED⟩ rfl

/-! ### Claim C7: what the validation layer actually rejects -/

/-- C7 counterexample: pydantic's `TaskCreateRequest` constrains only
`duration_ms` (`gt=0`); `id` and `type` are unconstrained `str` fields, so a
payload with empty id and empty type passes validation and is persisted —
it is not rejected with ValidationError as the claim states. -/
theorem empty_id_accepted_counterexample :
    submit emptyStore ⟨"", "", 5, []⟩ =
      .created ⟨[⟨"", "", 5, TaskStatus.QUEUED⟩], []⟩ ⟨"", TaskStatus.QUEUED⟩ ∧
    submit emptyStore ⟨"", "", 5, []⟩ ≠ .validationError := by
  constructor
  · rfl
  · decide

/-- C7 (amended): of the three spec conditions only `duration_ms > 0` is
enforced by the schema: every payload with `duration_ms ≤ 0` is rejected with
ValidationError (HTTP 422) before the service or store is touched, so nothing
is persisted; empty `id` or `type` do not cause a ValidationError. -/
theorem nonpositive_duration_rejected (s : Store) (raw : RawTaskPayload)
    (h : raw.duration_ms ≤ 0) :
    submit s raw = .validationError := by
  rw [submit, validate_task_create, if_neg (by omega)]

/-- C7 witness: a zero-duration payload is rejected. -/
theorem nonpositive_duration_rejected_witness :
    submit emptyStore ⟨"A", "x", 0, []⟩ = .validationError :=
  nonpositive_duration_rejected emptyStore ⟨"A", "x", 0, []⟩ (by decide)

/-! ### Claim C5: the edge graph of any serial submit sequence is acyclic

A successful submission only adds edges from the brand-new task (the duplicate
check proved its id fresh) to already-existing tasks (the dependency check
proved them present). Insertion order is therefore a topological order: every
edge points from a strictly later row to a strictly earlier one, and no cycle
can close. This argument does not rely on the DFS check, so it establishes
acyclicity independently of `has_cycle`'s verdict. -/

/-- A successful submission preserves id uniqueness and the backward-edge
invariant. -/
lemma submitStep_inv {s s1 : Store} (hstep : SubmitStep s s1)
    (hnd : (taskIds s).Nodup) (hb : EdgesBackward s) :
    (taskIds s1).Nodup ∧ EdgesBackward s1 := by
  obtain ⟨p, r, hok⟩ := hstep
  obtain ⟨hfresh, hdeps, htasks, hedges, -⟩ := create_task_service_ok hok
  have hids : taskIds s1 = taskIds s ++ [p.id] := by
    rw [taskIds, htasks, List.map_append]
    rfl
  have hidx_old : ∀ x ∈ taskIds s, idIdx s1 x = idIdx s x := by
    intro x hx
    rw [idIdx, hids, List.indexOf_append_of_mem hx]
    rfl
  have hidx_new : idIdx s1 p.id = (taskIds s).length := by
    rw [idIdx, hids, List.indexOf_append_of_not_mem hfresh, List.indexOf_cons_self]
    omega
  refine ⟨?_, ?_⟩
  · rw [hids]
    simpa [List.nodup_append] using ⟨hnd, hfresh⟩
  · intro e he
    rw [hedges, List.mem_append] at he
    rcases he with he | he
    · obtain ⟨h1, h2, h3⟩ := hb e he
      refine ⟨by rw [hids]; exact List.mem_append_left _ h1,
              by rw [hids]; exact List.mem_append_left _ h2, ?_⟩
      rw [hidx_old _ h2, hidx_old _ h1]
      exact h3
    · obtain ⟨dep, hdep, hedge⟩ := List.mem_map.mp he
      have hdepmem : dep ∈ taskIds s := hdeps dep hdep
      rw [← hedge]
      refine ⟨by rw [hids]; exact List.mem_append_right _ (by simp),
              by rw [hids]; exact List.mem_append_left _ hdepmem, ?_⟩
      have h4 : idIdx s1 dep = idIdx s dep := hidx_old dep hdepmem
      have h5 : idIdx s dep < (taskIds s).length := List.indexOf_lt_length.mpr hdepmem
      simp only []
      rw [h4, hidx_new]
      exact h5

/-- Every store reachable by serial successful submissions from the empty
store has unique ids and backward-pointing edges. -/
lemma submitReach_inv {s : Store} (h : SubmitReach emptyStore s) :
    (taskIds s).Nodup ∧ EdgesBackward s := by
  induction h with
  | refl => exact ⟨List.nodup_nil, fun e he => absurd he (List.not_mem_nil e)⟩
  | tail _ hstep ih => exact submitStep_inv hstep ih.1 ih.2

/-- Along a backward-pointing edge relation, the insertion index strictly
decreases, transitively. -/
lemma transGen_idIdx_lt {s : Store} (hb : EdgesBackward s) {a b : String}
    (h : Relation.TransGen (EdgeRel s) a b) : idIdx s b < idIdx s a := by
  induction h with
  | single h1 =>
    obtain ⟨e, he, h2, h3⟩ := h1
    subst h2
    subst h3
    exact (hb e he).2.2
  | tail h1 h2 ih =>
    obtain ⟨e, he, h3, h4⟩ := h2
    subst h3
    subst h4
    exact lt_trans (hb e he).2.2 ih

/-- C5: starting from the empty store, after any sequence of serially executed
submissions of which only the successful ones persist rows, the dependency
edge graph has no cycle (no task transitively depends on itself). -/
theorem submit_sequence_acyclic (s : Store) (h : SubmitReach emptyStore s) :
    ∀ a, ¬ Relation.TransGen (EdgeRel s) a a := by
  intro a hcy
  exact absurd (transGen_idIdx_lt (submitReach_inv h).2 hcy) (lt_irrefl _)

/-- C5 witness: the two-submission trace A then B(deps=[A]) reaches a store on
which no task cyclically depends on itself. -/
theorem submit_sequence_acyclic_witness :
    ¬ Relation.TransGen
      (EdgeRel ⟨[⟨"A", "t", 5, TaskStatus.QUEUED⟩, ⟨"B", "t", 5, TaskStatus.QUEUED⟩],
        [⟨"B", "A"⟩]⟩) "B" "B" := by
  have h1 : SubmitStep emptyStore ⟨[⟨"A", "t", 5, TaskStatus.QUEUED⟩], []⟩ :=
    ⟨⟨"A", "t", 5, []⟩, ⟨"A", TaskStatus.QUEUED⟩, rfl⟩
  have h2 : SubmitStep ⟨[⟨"A", "t", 5, TaskStatus.QUEUED⟩], []⟩
      ⟨[⟨"A", "t", 5, TaskStatus.QUEUED⟩, ⟨"B", "t", 5, TaskStatus.QUEUED⟩], [⟨"B", "A"⟩]⟩ :=
    ⟨⟨"B", "t", 5, ["A"]⟩, ⟨"B", TaskStatus.QUEUED⟩, rfl⟩
  exact submit_sequence_acyclic _
    (Relation.ReflTransGen.tail (Relation.ReflTransGen.single h1) h2) "B"

/-! ### Claim C10: no self-dependency can be created -/

/-- C10: a submission listing its own id among its dependencies always fails —
with 409 AlreadyExists when the id already exists, and otherwise with 400
MissingDependency, because the dependency-existence loop runs before the task
row is inserted and the id does not yet name a task; consequently no store
reachable by submissions from the empty store contains a self-edge. -/
theorem no_self_dependency :
    (∀ (s : Store) (p : TaskCreateRequest), p.id ∈ p.dependencies →
      (p.id ∈ taskIds s → create_task_service s p = .error .alreadyExists) ∧
      (p.id ∉ taskIds s →
        ∃ d, create_task_service s p = .error (.missingDependency d))) ∧
    (∀ s : Store, SubmitReach emptyStore s →
      ∀ e ∈ s.edges, e.task_id ≠ e.depends_on_task_id) := by
  constructor
  · intro s p hself
    refine ⟨fun hdup => create_task_service_dup hdup, fun hfresh => ?_⟩
    have hsome : (firstMissingDep s p.dependencies).isSome := by
      rw [firstMissingDep, List.find?_isSome]
      refine ⟨p.id, hself, ?_⟩
      rw [get_task_by_id_eq_none_iff.mpr hfresh]
      rfl
    obtain ⟨d, hd⟩ := Option.isSome_iff_exists.mp hsome
    refine ⟨d, ?_⟩
    rw [create_task_service,
      if_neg (fun hs => hfresh (get_task_by_id_isSome_iff.mp hs))]
    simp only [hd]
  · intro s hreach e he
    have hb := (submitReach_inv hreach).2
    obtain ⟨-, -, hlt⟩ := hb e he
    intro heq
    rw [heq] at hlt
    exact lt_irrefl _ hlt

/-- C10 witness: submitting S with deps=["S"] to the empty store fails with
MissingDependency, and the empty store (trivially reachable) has no
self-edge. -/
theorem no_self_dependency_witness :
    (∃ d, create_task_service emptyStore ⟨"S", "t", 5, ["S"]⟩ =
      .error (.missingDependency d)) ∧
    (∀ e ∈ emptyStore.edges, e.task_id ≠ e.depends_on_task_id) :=
  ⟨(no_self_dependency.1 emptyStore ⟨"S", "t", 5, ["S"]⟩ (by decide)).2 (by decide),
   no_self_dependency.2 emptyStore Relation.ReflTransGen.refl⟩

/-! ### Claim C4: terminal statuses are never mutated along program paths -/

lemma mem_guard_map_of_neg {l : List Task} {t : Task} (ht : t ∈ l) {c : Task → Bool}
    (hc : c t = false) (st : TaskStatus) :
    t ∈ l.map fun u => if c u then setStatus u st else u := by
  have := List.mem_map_of_mem (fun u => if c u then setStatus u st else u) ht
  simpa [hc] using this

lemma mem_guard_map_of_pos {l : List Task} {t : Task} (ht : t ∈ l) {c : Task → Bool}
    (hc : c t = true) (st : TaskStatus) :
    setStatus t st ∈ l.map fun u => if c u then setStatus u st else u := by
  have := List.mem_map_of_mem (fun u => if c u then setStatus u st else u) ht
  simpa [hc] using this

lemma taskIds_mark_task_running (s : Store) (id : String) :
    taskIds (mark_task_running s id).1 = taskIds s := by
  simp only [mark_task_running]
  split
  · rfl
  · exact taskIds_guard_map s.tasks (claimMatches id) TaskStatus.RUNNING

lemma taskIds_mark_task_completed (s : Store) (id : String) :
    taskIds (mark_task_completed s id) = taskIds s := by
  simp only [mark_task_completed]
  exact taskIds_guard_map s.tasks (fun t => decide (t.id = id)) TaskStatus.COMPLETED

lemma taskIds_mark_task_failed (s : Store) (id : String) :
    taskIds (mark_task_failed s id) = taskIds s := by
  simp only [mark_task_failed]
  exact taskIds_guard_map s.tasks (fun t => decide (t.id = id)) TaskStatus.FAILED

lemma taskIds_reset_running (s : Store) :
    taskIds (reset_running_tasks s).1 = taskIds s := by
  simp only [reset_running_tasks]
  exact taskIds_guard_map s.tasks
    (fun t => decide (t.status = TaskStatus.RUNNING)) TaskStatus.QUEUED

/-- A true claim means some row matched `id = task_id AND status = QUEUED`. -/
lemma exists_claim_row {s : Store} {id : String}
    (hcnt : (s.tasks.filter (claimMatches id)).length ≠ 0) :
    ∃ t ∈ s.tasks, t.id = id ∧ t.status = TaskStatus.QUEUED := by
  have hne : s.tasks.filter (claimMatches id) ≠ [] := by
    intro h0
    rw [h0] at hcnt
    exact hcnt rfl
  obtain ⟨t, ht⟩ := List.exists_mem_of_ne_nil _ hne
  have hm := List.mem_filter.mp ht
  refine ⟨t, hm.1, ?_⟩
  simpa [claimMatches] using hm.2

/-- The inductive invariant is preserved by every program event. -/
lemma schedStep_inv {σ σ' : SchedState} (hstep : SchedStep σ σ') (hinv : SchedInv σ) :
    SchedInv σ' := by
  obtain ⟨hnd, hfl, hrun⟩ := hinv
  cases hstep with
  | submit p s1 r hok =>
    obtain ⟨hfresh, -, htasks, -, -⟩ := create_task_service_ok hok
    have hids : taskIds s1 = taskIds σ.store ++ [p.id] := by
      rw [taskIds, htasks, List.map_append]
      rfl
    refine ⟨?_, hfl, ?_⟩
    · rw [hids]
      simpa [List.nodup_append] using ⟨hnd, hfresh⟩
    · intro id hid
      obtain ⟨t, ht, hid', hst⟩ := hrun id hid
      exact ⟨t, by rw [htasks]; exact List.mem_append_left _ ht, hid', hst⟩
  | claimOk id s1 hmk =>
    obtain ⟨hcnt, htasks⟩ := mark_task_running_true hmk
    obtain ⟨t, ht, hcm⟩ := exists_claim_row hcnt
    have hnd1 : (taskIds s1).Nodup := by
      have : taskIds s1 = taskIds σ.store := by
        rw [taskIds, htasks]
        exact taskIds_guard_map σ.store.tasks (claimMatches id) TaskStatus.RUNNING
      rw [this]
      exact hnd
    refine ⟨hnd1, ?_, ?_⟩
    · refine List.nodup_cons.mpr ⟨?_, hfl⟩
      intro hidin
      obtain ⟨t', ht', hid', hst'⟩ := hrun id hidin
      have heq := row_eq_of_id_eq hnd ht ht' (by rw [hcm.1, hid'])
      have hcontra : t.status = TaskStatus.RUNNING := by rw [heq]; exact hst'
      rw [hcm.2] at hcontra
      exact TaskStatus.noConfusion hcontra
    · intro id' hid'
      rcases List.mem_cons.mp hid' with heq | hmem
      · subst heq
        refine ⟨setStatus t TaskStatus.RUNNING, ?_, hcm.1, rfl⟩
        rw [htasks]
        exact mem_guard_map_of_pos ht (by simp [claimMatches, hcm.1, hcm.2]) _
      · obtain ⟨t', ht', hid', hst'⟩ := hrun id' hmem
        refine ⟨t', ?_, hid', hst'⟩
        rw [htasks]
        refine mem_guard_map_of_neg ht' ?_ _
        simp only [claimMatches, decide_eq_false_iff_not]
        rintro ⟨-, h2⟩
        rw [hst'] at h2
        exact TaskStatus.noConfusion h2
  | claimFail id s1 hmk =>
    have hs := mark_task_running_false hmk
    subst hs
    exact ⟨hnd, hfl, hrun⟩
  | complete id hid =>
    refine ⟨by rw [taskIds_mark_task_completed]; exact hnd, hfl.erase id, ?_⟩
    intro id' hid'
    obtain ⟨hne, hmem⟩ := hfl.mem_erase_iff.mp hid'
    obtain ⟨t', ht', hid'', hst'⟩ := hrun id' hmem
    refine ⟨t', ?_, hid'', hst'⟩
    simp only [mark_task_completed]
    refine mem_guard_map_of_neg ht' ?_ _
    simp only [decide_eq_false_iff_not]
    intro h2
    exact hne (by rw [← hid'', h2])
  | fail id hid =>
    refine ⟨by rw [taskIds_mark_task_failed]; exact hnd, hfl.erase id, ?_⟩
    intro id' hid'
    obtain ⟨hne, hmem⟩ := hfl.mem_erase_iff.mp hid'
    obtain ⟨t', ht', hid'', hst'⟩ := hrun id' hmem
    refine ⟨t', ?_, hid'', hst'⟩
    simp only [mark_task_failed]
    refine mem_guard_map_of_neg ht' ?_ _
    simp only [decide_eq_false_iff_not]
    intro h2
    exact hne (by rw [← hid'', h2])
  | crash =>
    exact ⟨hnd, List.nodup_nil, by intro id hid; exact absurd hid (List.not_mem_nil id)⟩
  | reset hflzero =>
    exact ⟨by rw [taskIds_reset_running]; exact hnd, List.nodup_nil,
      by intro id hid; exact absurd hid (List.not_mem_nil id)⟩

/-- Under the invariant, one program event preserves every terminal row. -/
lemma schedStep_preserves_terminal {σ σ' : SchedState} (hstep : SchedStep σ σ')
    (hinv : SchedInv σ) {t : Task} (ht : t ∈ σ.store.tasks) (hterm : Terminal t.status) :
    t ∈ σ'.store.tasks := by
  obtain ⟨hnd, hfl, hrun⟩ := hinv
  have htns : t.status ≠ TaskStatus.QUEUED := by
    rcases hterm with h | h <;> rw [h] <;> intro h2 <;> exact TaskStatus.noConfusion h2
  have htnr : t.status ≠ TaskStatus.RUNNING := by
    rcases hterm with h | h <;> rw [h] <;> intro h2 <;> exact TaskStatus.noConfusion h2
  cases hstep with
  | submit p s1 r hok =>
    obtain ⟨-, -, htasks, -, -⟩ := create_task_service_ok hok
    show t ∈ s1.tasks
    rw [htasks]
    exact List.mem_append_left _ ht
  | claimOk id s1 hmk =>
    obtain ⟨-, htasks⟩ := mark_task_running_true hmk
    show t ∈ s1.tasks
    rw [htasks]
    refine mem_guard_map_of_neg ht ?_ _
    simp only [claimMatches, decide_eq_false_iff_not]
    rintro ⟨-, h2⟩
    exact htns h2
  | claimFail id s1 hmk =>
    have hs := mark_task_running_false hmk
    show t ∈ s1.tasks
    rw [hs]
    exact ht
  | complete id hid =>
    have hneq : t.id ≠ id := by
      intro heq
      obtain ⟨t', ht', hid', hst'⟩ := hrun id hid
      have heq2 := row_eq_of_id_eq hnd ht ht' (by rw [heq, hid'])
      exact htnr (by rw [heq2]; exact hst')
    show t ∈ (mark_task_completed σ.store id).tasks
    simp only [mark_task_completed]
    exact mem_guard_map_of_neg ht (by simp [hneq]) _
  | fail id hid =>
    have hneq : t.id ≠ id := by
      intro heq
      obtain ⟨t', ht', hid', hst'⟩ := hrun id hid
      have heq2 := row_eq_of_id_eq hnd ht ht' (by rw [heq, hid'])
      exact htnr (by rw [heq2]; exact hst')
    show t ∈ (mark_task_failed σ.store id).tasks
    simp only [mark_task_failed]
    exact mem_guard_map_of_neg ht (by simp [hneq]) _
  | crash =>
    exact ht
  | reset hflzero =>
    show t ∈ (reset_running_tasks σ.store).1.tasks
    simp only [reset_running_tasks]
    exact mem_guard_map_of_neg ht (by simp [htnr]) _

/-- The invariant holds in every reachable program state. -/
lemma schedReach_inv {σ : SchedState} (h : SchedReach σ) : SchedInv σ := by
  have h' : Relation.ReflTransGen SchedStep initState σ := h
  clear h
  induction h' with
  | refl =>
    exact ⟨List.nodup_nil, List.nodup_nil,
      by intro id hid; exact absurd hid (List.not_mem_nil id)⟩
  | tail hsteps hstep ih => exact schedStep_inv hstep ih

/-- C4: along any program code path (submission, claim, worker completion or
failure, crash, startup recovery), once a task's status is COMPLETED or FAILED
the task row never changes again: the row survives every further event
verbatim, and it remains the unique row bearing its id. -/
theorem terminal_states_final (σ σ' : SchedState) (hreach : SchedReach σ)
    (hstep : SchedStep σ σ') (t : Task) (ht : t ∈ σ.store.tasks)
    (hterm : Terminal t.status) :
    t ∈ σ'.store.tasks ∧ ∀ t' ∈ σ'.store.tasks, t'.id = t.id → t' = t := by
  have hinv := schedReach_inv hreach
  have hmem := schedStep_preserves_terminal hstep hinv ht hterm
  have hinv' := schedStep_inv hstep hinv
  exact ⟨hmem, fun t' ht' hid => row_eq_of_id_eq hinv'.1 ht' hmem hid⟩

/-- C4 witness: submit A, claim it, complete it; the COMPLETED row survives
the next event (here a crash) unchanged. -/
theorem terminal_states_final_witness :
    (⟨"A", "t", 5, TaskStatus.COMPLETED⟩ : Task) ∈
      (⟨⟨[⟨"A", "t", 5, TaskStatus.COMPLETED⟩], []⟩, []⟩ : SchedState).store.tasks := by
  have s1 : SchedStep initState ⟨⟨[⟨"A", "t", 5, TaskStatus.QUEUED⟩], []⟩, []⟩ :=
    SchedStep.submit initState ⟨"A", "t", 5, []⟩ ⟨[⟨"A", "t", 5, TaskStatus.QUEUED⟩], []⟩
      ⟨"A", TaskStatus.QUEUED⟩ rfl
  have s2 : SchedStep ⟨⟨[⟨"A", "t", 5, TaskStatus.QUEUED⟩], []⟩, []⟩
      ⟨⟨[⟨"A", "t", 5, TaskStatus.RUNNING⟩], []⟩, ["A"]⟩ :=
    SchedStep.claimOk ⟨⟨[⟨"A", "t", 5, TaskStatus.QUEUED⟩], []⟩, []⟩ "A"
      ⟨[⟨"A", "t", 5, TaskStatus.RUNNING⟩], []⟩ rfl
  have s3 : SchedStep ⟨⟨[⟨"A", "t", 5, TaskStatus.RUNNING⟩], []⟩, ["A"]⟩
      ⟨⟨[⟨"A", "t", 5, TaskStatus.COMPLETED⟩], []⟩, []⟩ :=
    SchedStep.complete ⟨⟨[⟨"A", "t", 5, TaskStatus.RUNNING⟩], []⟩, ["A"]⟩ "A" (by decide)
  have hreach : SchedReach ⟨⟨[⟨"A", "t", 5, TaskStatus.COMPLETED⟩], []⟩, []⟩ :=
    Relation.ReflTransGen.tail
      (Relation.ReflTransGen.tail (Relation.ReflTransGen.single s1) s2) s3
  exact (terminal_states_final _ _ hreach
    (SchedStep.crash ⟨⟨[⟨"A", "t", 5, TaskStatus.COMPLETED⟩], []⟩, []⟩)
    ⟨"A", "t", 5, TaskStatus.COMPLETED⟩ (by decide) (Or.inl rfl)).1

end App
